import Mathlib

/-!
Verification of `src/scripts/check_imported.py` against its natural-language
specification.  The development shallowly embeds the two core algorithms of
the script — the recursive DICOM record comparator `compare_dicoms`
(lines 105-155) and the file-set matcher `compare_all_dicoms`
(lines 158-213) — together with the CID ordering used by `run_check`
(lines 67-68), and proves or refutes the frozen claims about them.

Modelling conventions:
  * pydicom values are modelled by `DVal` (string scalar, integer scalar, or
    a sequence of datasets); a pydicom `DataElement` by `DElem`; a pydicom
    `Dataset` by `Dataset`.  Custom list types (`Elems`, `SeqItems`) are used
    so that all recursion is structural over one mutual inductive family.
  * Python exceptions that escape `compare_dicoms` are modelled by the
    `CmpErr` error type of an `Except` result: `WrongEchoTimeException`,
    the `NameError` caused by the unbound variable `x` in the field loop,
    Python `TypeError`s on shape-mismatched nodes, the `ValueError` of
    `max()` on an empty sequence, and `AssertionError`.
  * the logger is modelled by a list of structured `LogEntry` values
    returned alongside the boolean; message text is kept structurally
    (field path, lengths, and the optionally included pair of values)
    rather than as formatted strings.  Log entries emitted on an execution
    path that subsequently raises are not tracked, since an exception
    aborts the comparison anyway and no claim inspects them.
-/

/-- A DICOM tag, written `('0018', '0081')` in the source; modelled as a
pair of group/element numbers. -/
abbrev Tag := Nat × Nat

/-- The acquisition ("echo time") tag `('0018', '0081')` checked at
line 112 of the source; `0x0018 = 24`, `0x0081 = 129`. -/
def echoTimeTag : Tag := (24, 129)

mutual
/-- The value of a pydicom data element: a string scalar, a numeric scalar,
or a repeated sequence of datasets. -/
inductive DVal : Type where
  | str (s : String)
  | num (n : Int)
  | seq (items : SeqItems)

/-- The items of a pydicom `Sequence`: a list of datasets. -/
inductive SeqItems : Type where
  | nil
  | cons (hd : Dataset) (tl : SeqItems)

/-- A pydicom `Dataset`: a collection of data elements, listed in the
order in which iteration yields them (pydicom iterates in tag order). -/
inductive Dataset : Type where
  | mk (elems : Elems)

/-- A list of data elements. -/
inductive Elems : Type where
  | nil
  | cons (hd : DElem) (tl : Elems)

/-- A pydicom `DataElement`: a tag, a human-readable element name (the
source's `d.name`), and a value. -/
inductive DElem : Type where
  | mk (tag : Tag) (nm : String) (val : DVal)
end

/-- The tag of a data element. -/
def DElem.tag : DElem → Tag
  | .mk t _ _ => t

/-- The name of a data element. -/
def DElem.name : DElem → String
  | .mk _ n _ => n

/-- The value of a data element. -/
def DElem.val : DElem → DVal
  | .mk _ _ v => v

/-- Number of items of a sequence (`len` on a pydicom `Sequence`). -/
def seqLen : SeqItems → Nat
  | .nil => 0
  | .cons _ tl => seqLen tl + 1

mutual
/-- Python `==` on element values, as used by the source's `!=` comparisons
(lines 114, 131, 140).  Structural; exact for the scalar values the script
actually compares. -/
def pyEq : DVal → DVal → Bool
  | .str a, .str b => a == b
  | .num a, .num b => a == b
  | .seq a, .seq b => pyEqSeq a b
  | _, _ => false
termination_by structural a => a

/-- Python `==` on sequences: elementwise dataset equality. -/
def pyEqSeq : SeqItems → SeqItems → Bool
  | .nil, .nil => true
  | .cons a ta, .cons b tb => pyEqDS a b && pyEqSeq ta tb
  | _, _ => false
termination_by structural a => a

/-- Python `==` on datasets. -/
def pyEqDS : Dataset → Dataset → Bool
  | .mk a, .mk b => pyEqElems a b
termination_by structural a => a

/-- Python `==` on element lists. -/
def pyEqElems : Elems → Elems → Bool
  | .nil, .nil => true
  | .cons a ta, .cons b tb => pyEqEl a b && pyEqElems ta tb
  | _, _ => false
termination_by structural a => a

/-- Python `==` on single data elements. -/
def pyEqEl : DElem → DElem → Bool
  | .mk t n v, .mk t' n' v' => t == t' && n == n' && pyEq v v'
termination_by structural e => e
end

/-- Python `len` of a value: defined for strings and sequences; `none`
models the `TypeError` raised by `len` of a number (caught at line 145). -/
def pyLen : DVal → Option Nat
  | .str s => some s.length
  | .num _ => none
  | .seq items => some (seqLen items)

/-- Lookup of a data element by tag, the source's `xnat_elem[d.tag]`
(first match; pydicom datasets are keyed by tag). -/
def elemsLookup : Elems → Tag → Option DElem
  | .nil, _ => none
  | .cons e tl, t => if e.tag == t then some e else elemsLookup tl t

/-- Tag lookup on a dataset. -/
def dsLookup : Dataset → Tag → Option DElem
  | .mk es, t => elemsLookup es t

/-- The source's `'.'.join(ns)` (line 108). -/
def joinDot (ns : List String) : String := String.intercalate "." ns

/-- A structured discrepancy log entry, one constructor per `logger.error`
call inside `compare_dicoms`. -/
inductive LogEntry : Type where
  /-- Line 118: the echo-time tag is present on the daris side but absent
  on the xnat side.  The source logs a constant (unformatted) message. -/
  | echoTimeMissing
  /-- Line 125: a daris-side field is missing from the xnat dataset. -/
  | missingField (pfx : String)
  /-- Line 132: mismatching sequence lengths (xnat length, daris length). -/
  | seqLenMismatch (pfx nm : String) (xlen dlen : Nat)
  /-- Line 152: mismatching scalar value; `diff = some (x, d)` when the
  literal values are included in the message and `none` when omitted. -/
  | valueMismatch (pfx nm : String) (diff : Option (DVal × DVal))

/-- Exceptions escaping the comparison functions. -/
inductive CmpErr : Type where
  /-- `WrongEchoTimeException` (lines 101-102, raised at line 116). -/
  | wrongEchoTime
  /-- The Python `NameError` raised at line 128 when the variable `x` is
  used although the very first lookup raised `KeyError` and `x` was never
  bound. -/
  | nameError
  /-- Python `TypeError` on shape-mismatched nodes, e.g. `len` or `zip` of
  a non-sequence value at line 131.  Never produced on the dataset shapes
  the orchestrator builds. -/
  | typeMismatch
  /-- Python `ValueError` of `max()` over an empty sequence (line 173). -/
  | valueError
  /-- Python `AssertionError` (line 189). -/
  | assertionError

mutual
/-- `compare_dicoms` on two datasets (the `isinstance(daris_elem, Dataset)`
branch, lines 110-129): first the echo-time pre-check (lines 112-120),
then the field loop (lines 121-129).  Returns the boolean `match` together
with the log entries emitted, or the escaping exception. -/
def compareDS (xds dds : Dataset) (pfx : String) (ns : List String) :
    Except CmpErr (Bool × List LogEntry) :=
  match dds with
  | .mk delems =>
    match elemsLookup delems echoTimeTag with
    | none => compareFields xds delems none pfx ns
    | some de =>
      match dsLookup xds echoTimeTag with
      | none =>
        -- KeyError at line 115: logged at line 118, `match = False` at
        -- line 120; the field loop still runs and its result is ANDed in.
        match compareFields xds delems none pfx ns with
        | .error e => .error e
        | .ok (_, lg) => .ok (false, LogEntry.echoTimeMissing :: lg)
      | some xe =>
        if pyEq de.val xe.val then compareFields xds delems none pfx ns
        else .error .wrongEchoTime
termination_by structural dds

/-- The field loop of `compare_dicoms` (lines 121-129), iterating the
daris-side elements.  `lastX` is the last value bound to the Python
variable `x`; on a `KeyError` (missing xnat field) the source logs,
sets `match = False`, and then recurses on the *stale* `x` — or raises
`NameError` when `x` was never bound. -/
def compareFields (xds : Dataset) (ds : Elems) (lastX : Option DElem)
    (pfx : String) (ns : List String) : Except CmpErr (Bool × List LogEntry) :=
  match ds with
  | .nil => .ok (true, [])
  | .cons d tl =>
    match dsLookup xds d.tag with
    | some x =>
      match compareEl x d pfx (ns ++ [d.name]) with
      | .error e => .error e
      | .ok (b1, lg1) =>
        match compareFields xds tl (some x) pfx ns with
        | .error e => .error e
        | .ok (b2, lg2) => .ok (b1 && b2, lg1 ++ lg2)
    | none =>
      match lastX with
      | none => .error .nameError
      | some x =>
        match compareEl x d pfx (ns ++ [d.name]) with
        | .error e => .error e
        | .ok (_, lg1) =>
          match compareFields xds tl (some x) pfx ns with
          | .error e => .error e
          | .ok (_, lg2) =>
            -- `match` was set to False at line 127 and can never recover.
            .ok (false, LogEntry.missingField pfx :: (lg1 ++ lg2))
termination_by structural ds

/-- `compare_dicoms` on two data elements: the sequence branch
(lines 130-138) or the scalar branch (lines 139-154), dispatching on the
daris-side value exactly as the source's `isinstance` chain does. -/
def compareEl (x d : DElem) (pfx : String) (ns : List String) :
    Except CmpErr (Bool × List LogEntry) :=
  match d with
  | .mk _ _ dv =>
    match dv with
    | .seq ditems =>
      match x.val with
      | .seq xitems =>
        let xlen := seqLen xitems
        let dlen := seqLen ditems
        -- Line 131-135: a length mismatch is logged, but the source does
        -- NOT set `match = False` here.
        let lenLog :=
          if xlen ≠ dlen then [LogEntry.seqLenMismatch pfx (joinDot ns) xlen dlen]
          else ([] : List LogEntry)
        match compareSeq xitems ditems pfx ns with
        | .error e => .error e
        | .ok (b, lg) => .ok (b, lenLog ++ lg)
      | _ => .error .typeMismatch
    | _ =>
      if pyEq x.val dv then .ok (true, [])
      else
        let incl : Bool :=
          match pyLen x.val, pyLen dv with
          | some a, some b => decide (max a b ≤ 100)
          | _, _ => true
        let diff := if incl then some (x.val, dv) else none
        .ok (false, [LogEntry.valueMismatch pfx (joinDot ns) diff])
termination_by structural d

/-- The pairwise recursion over zipped sequence items (lines 136-138);
`zip` stops at the shorter sequence. -/
def compareSeq (xs ds : SeqItems) (pfx : String) (ns : List String) :
    Except CmpErr (Bool × List LogEntry) :=
  match xs, ds with
  | .cons x xt, .cons d dt =>
    match compareDS x d pfx ns with
    | .error e => .error e
    | .ok (b1, lg1) =>
      match compareSeq xt dt pfx ns with
      | .error e => .error e
      | .ok (b2, lg2) => .ok (b1 && b2, lg1 ++ lg2)
  | _, _ => .ok (true, [])
termination_by structural ds
end

/-- Top-level `compare_dicoms(xnat_elem, daris_elem, prefix)` as invoked at
line 205, with the default `ns=None` (i.e. an empty path). -/
def compare_dicoms (xds dds : Dataset) (pfx : String) :
    Except CmpErr (Bool × List LogEntry) :=
  compareDS xds dds pfx []

/-! ## The file-set matcher `compare_all_dicoms` (lines 158-213)

The matcher is parametrised by two total read functions `readX`/`readD`
standing for `dicom.read_file` on the xnat and the daris directory
respectively, and by the two raw directory listings.  Path joining is
dropped: files are identified by their names. -/

/-- Whether a character list ends with the given suffix, Python's
`str.endswith` over the characters of a string. -/
def listEndsWith (l suf : List Char) : Bool :=
  (l.drop (l.length - suf.length)) == suf

/-- The source's filter `f.endswith('.dcm')` (lines 159-162). -/
def endsDcm (s : String) : Bool := listEndsWith s.data ['.', 'd', 'c', 'm']

/-- Python `str.split(sep)` for a one-character separator, over the
characters of a string; `''.split(sep)` gives `['']` as in Python. -/
def splitOnChar (c : Char) : List Char → List (List Char)
  | [] => [[]]
  | x :: xs =>
    let r := splitOnChar c xs
    if x = c then [] :: r
    else
      match r with
      | [] => [[x]]
      | t :: ts => (x :: t) :: ts

/-- `s.split(c)` on a string. -/
def strSplitOn (c : Char) (s : String) : List (List Char) := splitOnChar c s.data

/-- The numeric value of a decimal digit character. -/
def digitVal (c : Char) : Option Nat :=
  if c = '0' then some 0 else if c = '1' then some 1
  else if c = '2' then some 2 else if c = '3' then some 3
  else if c = '4' then some 4 else if c = '5' then some 5
  else if c = '6' then some 6 else if c = '7' then some 7
  else if c = '8' then some 8 else if c = '9' then some 9 else none

/-- Decimal reading of a token, `none` on the empty or a non-numeric
token. -/
def digitsToNat? (l : List Char) : Option Nat :=
  match l with
  | [] => none
  | _ =>
    l.foldl (fun acc c => do
      let a ← acc
      let d ← digitVal c
      pure (a * 10 + d)) (some 0)

/-- Python `int()` on a decimal token.  The source raises `ValueError` on a
non-numeric token; modelled only for the numeric tokens that actual file
names carry. -/
def pyInt (tok : List Char) : Nat := (digitsToNat? tok).getD 0

/-- The source's `fname.split('-')[-2]` (line 171): the second-to-last
dash-delimited token.  Python raises `IndexError` on a list of fewer than
two tokens; modelled only for names that contain a dash. -/
def secondLastTok (l : List (List Char)) : List Char := l.getD (l.length - 2) []

/-- The source's `fname.split('.')[0]` (line 181): the leading
dot-delimited token. -/
def headTok (l : List (List Char)) : List Char := l.getD 0 []

/-- Append a file under a key, as `defaultdict(list)` does: extend the
key's list if present, otherwise create the key (at insertion order). -/
def addToMap (m : List (Nat × List String)) (k : Nat) (f : String) :
    List (Nat × List String) :=
  match m with
  | [] => [(k, [f])]
  | (k0, fs) :: rest =>
    if k0 = k then (k0, fs ++ [f]) :: rest else (k0, fs) :: addToMap rest k f

/-- Group files by a derived key, modelling the `defaultdict(list)` loops
at lines 169-172 and 179-182.  Keys are kept in first-insertion order
(the source's Python 2 dict order is unspecified; no claim depends on the
order in which slots are visited). -/
def buildMap (keyOf : String → Nat) (files : List String) :
    List (Nat × List String) :=
  files.foldl (fun m f => addToMap m (keyOf f) f) []

/-- Lookup in a slot map; absent keys give `[]`, as a `defaultdict` does. -/
def lookupMap (m : List (Nat × List String)) (k : Nat) : List String :=
  match m with
  | [] => []
  | (k0, fs) :: rest => if k0 = k then fs else lookupMap rest k

/-- The xnat slot number of a destination file name (line 171). -/
def xnatSlot (f : String) : Nat := pyInt (secondLastTok (strSplitOn '-' f))

/-- The daris slot number of a source file name (line 181):
`(int(fname.split('.')[0]) + 1) // max_mult`. -/
def darisSlot (mult : Nat) (f : String) : Nat :=
  (pyInt (headTok (strSplitOn '.' f)) + 1) / mult

/-- The destination slot map of a directory listing (lines 169-172). -/
def xnatMapOf (xnatList : List String) : List (Nat × List String) :=
  buildMap xnatSlot (xnatList.filter endsDcm)

/-- The source slot map of a directory listing (lines 179-182). -/
def darisMapOf (mult : Nat) (darisList : List String) : List (Nat × List String) :=
  buildMap (darisSlot mult) (darisList.filter endsDcm)

/-- `max(len(v) for v in xnat_fname_map.itervalues())` (line 173).  Only
evaluated on non-empty maps (`max()` of the empty sequence raises). -/
def listMaxNat (l : List Nat) : Nat := l.foldl Nat.max 0

/-- Python `sorted` on a list of numbers (line 183). -/
def sortNat (l : List Nat) : List Nat :=
  List.insertionSort (fun a b : Nat => a ≤ b) l

/-- `itertools.product(range(n), range(n))` (lines 191-192), in iteration
order: the first component varies slowest. -/
def allPairs (n : Nat) : List (Nat × Nat) :=
  (List.range n).flatMap (fun i => (List.range n).map (fun j => (i, j)))

/-- The log prefix handed to `compare_dicoms` at lines 207-208; the last
format argument is the literal `0` of the source. -/
def slotPfx (cid sess : String) (did dcm_num : Nat) : String :=
  cid ++ ": dicom mismatch in " ++ sess ++ "." ++ toString did ++ "." ++
    toString dcm_num ++ "(0) -"

/-- The candidate-pair loop of one slot (lines 191-212): each ordered pair
`(i, j)` is tried; `WrongEchoTimeException` advances to the next pair, a
`False` comparison returns `False` for the whole dataset, any other
exception propagates, and a completed loop moves on (`.ok true`). -/
def tryPairs (readX readD : String → Dataset) (pfx : String)
    (xlist dlist : List String) : List (Nat × Nat) → Except CmpErr Bool
  | [] => .ok true
  | (i, j) :: rest =>
    match compare_dicoms (readX (xlist.getD j "")) (readD (dlist.getD i "")) pfx with
    | .error .wrongEchoTime => tryPairs readX readD pfx xlist dlist rest
    | .error e => .error e
    | .ok (b, _) =>
      if b then tryPairs readX readD pfx xlist dlist rest else .ok false

/-- The per-slot loop (lines 187-212).  The `assert` at line 189 is
modelled by `.error .assertionError`; the `except KeyError` at line 199 is
unreachable (a `defaultdict` lookup never raises `KeyError` and the list
index is in range once the assertion holds), so it is not modelled. -/
def slotsLoop (readX readD : String → Dataset) (cid sess : String) (did : Nat)
    (xmap : List (Nat × List String)) :
    List (Nat × List String) → Except CmpErr Bool
  | [] => .ok true
  | (dcm_num, dlist) :: rest =>
    let xlist := lookupMap xmap dcm_num
    if xlist.length ≠ dlist.length then .error .assertionError
    else
      match tryPairs readX readD (slotPfx cid sess did dcm_num) xlist dlist
          (allPairs dlist.length) with
      | .error e => .error e
      | .ok true => slotsLoop readX readD cid sess did xmap rest
      | .ok false => .ok false

/-- `compare_all_dicoms(xnat_path, daris_path, cid, xnat_session,
dataset_id)` (lines 158-213).  Note that the source computes `min_mult`
(line 174) with `max`, exactly like `max_mult` (line 173) — the
copy-paste is reproduced faithfully, so the `max_mult != min_mult` check
at line 175 never fires. -/
def compare_all_dicoms (readX readD : String → Dataset)
    (xnatList darisList : List String) (cid sess : String) (did : Nat) :
    Except CmpErr Bool :=
  let daris_files := darisList.filter endsDcm
  let xnat_files := xnatList.filter endsDcm
  if daris_files.length ≠ xnat_files.length then .ok false
  else
    let xmap := buildMap xnatSlot xnat_files
    if xmap = [] then .error .valueError
    else
      let max_mult := listMaxNat (xmap.map (fun kv => kv.2.length))
      let min_mult := listMaxNat (xmap.map (fun kv => kv.2.length))
      if max_mult ≠ min_mult then .ok false
      else
        let dmap := buildMap (darisSlot max_mult) daris_files
        if sortNat (xmap.map Prod.fst) ≠ sortNat (dmap.map Prod.fst) then .ok false
        else slotsLoop readX readD cid sess did xmap dmap

/-! ## The CID visiting order of `run_check` (lines 67-68) -/

/-- The integer-tuple interpretation of a dotted CID:
`tuple(int(p) for p in x.split('.'))`.  `int()` raises on a non-numeric
component; modelled only for numeric components. -/
def cidKey (s : String) : List Nat :=
  (strSplitOn '.' s).map (fun p => (digitsToNat? p).getD 0)

/-- Lexicographic order on integer tuples, as Python compares tuples: a
strict prefix precedes every extension. -/
def natListLe : List Nat → List Nat → Bool
  | [], _ => true
  | _ :: _, [] => false
  | a :: as1, b :: bs1 =>
    if a < b then true else if b < a then false else natListLe as1 bs1

/-- The comparison underlying `sorted(..., key=...)` at lines 67-68. -/
def cidLe (a b : String) : Prop := natListLe (cidKey a) (cidKey b) = true

instance : DecidableRel cidLe := fun a b => by
  unfold cidLe; infer_instance

/-- The order in which `run_check` visits the CIDs returned by the catalog
query: ascending by integer-tuple key (lines 67-68).  A sort by key that
returns a `cidLe`-sorted permutation is exactly what Python's stable
`sorted` produces for the purposes of visiting order. -/
def run_check_cid_order (cids : List String) : List String :=
  List.insertionSort cidLe cids

/-! ## Auxiliary predicates used by the theorems -/

/-- The echo multiplicity the matcher derives from the destination slot
map (`max_mult`, line 173). -/
def echoMult (xnatList : List String) : Nat :=
  listMaxNat ((xnatMapOf xnatList).map (fun kv => kv.2.length))

/-- Whether one candidate pair's comparison outcome is non-fatal for the
slot loop: either the comparison succeeded, or it raised the timing
signal and the pair is merely skipped. -/
def pairOk (r : Except CmpErr (Bool × List LogEntry)) : Bool :=
  match r with
  | .ok (b, _) => b
  | .error .wrongEchoTime => true
  | .error _ => false

/-- Whether some daris-side element's tag is absent from the xnat
dataset. -/
def hasMissingField (xds : Dataset) : Elems → Bool
  | .nil => false
  | .cons e tl => (dsLookup xds e.tag).isNone || hasMissingField xds tl

/-- Concatenation of element lists. -/
def elemsAppend : Elems → Elems → Elems
  | .nil, es => es
  | .cons e tl, es => .cons e (elemsAppend tl es)

/-- Every tag of `extra` is absent from `dds` (so no lookup the comparator
performs against the daris-side tags can reach `extra`). -/
def disjointFrom (extra dds : Elems) : Bool :=
  match extra with
  | .nil => true
  | .cons e tl => (elemsLookup dds e.tag).isNone && disjointFrom tl dds

/-- Membership of an element in an element list. -/
def elemIn (e : DElem) : Elems → Prop
  | .nil => False
  | .cons h tl => e = h ∨ elemIn e tl

/-- Whether the echo-time pre-check (lines 112-116) would raise
`WrongEchoTimeException` for this pair of datasets: both contain the
echo-time tag and the values differ. -/
def etWouldRaise (xds dds : Dataset) : Bool :=
  match dsLookup dds echoTimeTag, dsLookup xds echoTimeTag with
  | some de, some xe => !(pyEq de.val xe.val)
  | _, _ => false

mutual
/-- Well-formedness of a value: every dataset nested below it has
pairwise-distinct tags (pydicom datasets are keyed by tag, so real
datasets satisfy this by construction). -/
def wfVal : DVal → Bool
  | .str _ => true
  | .num _ => true
  | .seq items => wfSeq items
termination_by structural v => v

/-- Well-formedness of the items of a sequence. -/
def wfSeq : SeqItems → Bool
  | .nil => true
  | .cons d tl => wfDS d && wfSeq tl
termination_by structural s => s

/-- Well-formedness of a dataset. -/
def wfDS : Dataset → Bool
  | .mk es => wfElems es
termination_by structural d => d

/-- Well-formedness of an element list: pairwise-distinct tags and
well-formed values. -/
def wfElems : Elems → Bool
  | .nil => true
  | .cons (.mk t _ v) tl => (elemsLookup tl t).isNone && wfVal v && wfElems tl
termination_by structural es => es
end

/-- Every element of `rest` is found (as itself) by a tag lookup on `xds`,
and carries a well-formed value.  This is the invariant under which the
field loop of `compare_dicoms(X, X)` succeeds. -/
def lookupOK (xds : Dataset) : Elems → Prop
  | .nil => True
  | .cons e tl => (dsLookup xds e.tag = some e ∧ wfVal e.val = true) ∧ lookupOK xds tl

/-! ## Concrete fixtures used by counterexamples and witnesses -/

/-- The empty dataset. -/
def dsEmpty : Dataset := .mk .nil

/-- A read function returning the empty dataset for every file. -/
def readEmpty : String → Dataset := fun _ => dsEmpty

/-- A dataset holding a single echo-time element with the given value. -/
def dsET (v : String) : Dataset :=
  .mk (.cons (DElem.mk echoTimeTag "Echo Time" (.str v)) .nil)

/-- C2 fixture, xnat side: one element whose value is a two-item
sequence of empty datasets. -/
def xdsC2 : Dataset :=
  .mk (.cons (DElem.mk (8, 0) "Seq" (.seq (.cons dsEmpty (.cons dsEmpty .nil)))) .nil)

/-- C2 fixture, daris side: the same element with a one-item sequence. -/
def ddsC2 : Dataset :=
  .mk (.cons (DElem.mk (8, 0) "Seq" (.seq (.cons dsEmpty .nil))) .nil)

/-- C4 fixture, xnat side: a single ordinary field `A`, no echo time. -/
def xdsC4 : Dataset := .mk (.cons (DElem.mk (8, 8) "A" (.str "v")) .nil)

/-- C4 fixture, daris side: the same field `A` plus an echo-time field
that the xnat side lacks. -/
def ddsC4 : Dataset :=
  .mk (.cons (DElem.mk (8, 8) "A" (.str "v"))
    (.cons (DElem.mk echoTimeTag "Echo Time" (.str "1")) .nil))

/-- C5 fixture, daris side: a single field `B` absent from the (empty)
xnat side; iterating it makes the very first lookup fail. -/
def ddsC5 : Dataset := .mk (.cons (DElem.mk (16, 16) "B" (.str "x")) .nil)

/-- C5 witness fixture, xnat side: field `A` only. -/
def xdsC5w : Elems := .cons (DElem.mk (8, 8) "A" (.str "v")) .nil

/-- C5 witness fixture, daris side: field `A` and a second field `B`
missing from the xnat side (so the stale-variable path is taken, not the
name error). -/
def ddsC5w : Elems :=
  .cons (DElem.mk (8, 8) "A" (.str "v"))
    (.cons (DElem.mk (16, 16) "B" (.str "w")) .nil)

/-- C5 witness fixture: extra xnat-side elements whose tags appear
nowhere on the daris side. -/
def extraC5w : Elems := .cons (DElem.mk (64, 64) "Z" (.str "z")) .nil

/-- C10 fixture, xnat side: only an echo-time element, value `"2"`. -/
def xdsC10 : Dataset :=
  .mk (.cons (DElem.mk echoTimeTag "Echo Time" (.str "2")) .nil)

/-- C10 fixture, daris side: a first field `A` that the xnat side lacks,
and an echo-time element with the differing value `"1"`. -/
def ddsC10 : Dataset :=
  .mk (.cons (DElem.mk (8, 8) "A" (.str "v"))
    (.cons (DElem.mk echoTimeTag "Echo Time" (.str "1")) .nil))

/-- C6 witness fixture: a well-formed dataset with an echo time, a scalar
field and a nested sequence. -/
def dsRefl : Dataset :=
  .mk (.cons (DElem.mk echoTimeTag "Echo Time" (.str "1"))
    (.cons (DElem.mk (8, 8) "A" (.str "v"))
      (.cons (DElem.mk (8, 16) "S"
        (.seq (.cons (Dataset.mk (.cons (DElem.mk (8, 24) "T" (.num 7)) .nil)) .nil)))
        .nil)))

/-! ## Helper lemmas -/

/-- Totality of the integer-tuple lexicographic order. -/
theorem natListLe_total : ∀ ka kb : List Nat,
    natListLe ka kb = true ∨ natListLe kb ka = true := by
  intro ka
  induction ka with
  | nil => intro kb; left; rfl
  | cons x xs ih =>
    intro kb
    cases kb with
    | nil => right; rfl
    | cons y ys =>
      rcases Nat.lt_trichotomy x y with h | h | h
      · left; simp [natListLe, h]
      · subst h
        rcases ih ys with h2 | h2
        · left; simp [natListLe, Nat.lt_irrefl, h2]
        · right; simp [natListLe, Nat.lt_irrefl, h2]
      · right; simp [natListLe, h]

/-- Transitivity of the integer-tuple lexicographic order. -/
theorem natListLe_trans : ∀ ka kb kc : List Nat, natListLe ka kb = true →
    natListLe kb kc = true → natListLe ka kc = true := by
  intro ka
  induction ka with
  | nil => intro kb kc _ _; rfl
  | cons x xs ih =>
    intro kb kc h1 h2
    cases kb with
    | nil => simp [natListLe] at h1
    | cons y ys =>
      cases kc with
      | nil => simp [natListLe] at h2
      | cons z zs =>
        simp only [natListLe] at h1 h2 ⊢
        by_cases hxy : x < y
        · by_cases hyz : y < z
          · have : x < z := Nat.lt_trans hxy hyz
            simp [this]
          · by_cases hzy : z < y
            · simp [hxy, hyz, hzy] at h2
            · have : y = z := Nat.le_antisymm (Nat.le_of_not_lt hzy) (Nat.le_of_not_lt hyz)
              subst this
              simp [hxy]
        · by_cases hyx : y < x
          · simp [hxy, hyx] at h1
          · have hxyeq : x = y := Nat.le_antisymm (Nat.le_of_not_lt hyx) (Nat.le_of_not_lt hxy)
            subst hxyeq
            simp only [Nat.lt_irrefl, if_false] at h1
            by_cases hyz : x < z
            · simp [hyz]
            · by_cases hzy : z < x
              · simp [hyz, hzy] at h2
              · simp only [hyz, hzy, if_false] at h2 ⊢
                exact ih ys zs h1 h2

/-! ## The claims -/

/-- Claim C9: for every set of CIDs returned by the catalog query, the
Project Walker visits them in ascending order of their integer-tuple
interpretation (each dotted component parsed as an integer), not in
string-lexicographic order: the visiting order is sorted under `cidLe`
(the integer-tuple comparison), it is a permutation of the input, and on
the concrete pair of the claim `1008.2.1.1.1.1.9` is visited before
`1008.2.1.1.1.1.10` although the string order is the reverse. -/
theorem C9_cid_visit_order :
    (∀ cids : List String, List.Sorted cidLe (run_check_cid_order cids)) ∧
    (∀ cids : List String, (run_check_cid_order cids).Perm cids) ∧
    run_check_cid_order ["1008.2.1.1.1.1.10", "1008.2.1.1.1.1.9"] =
      ["1008.2.1.1.1.1.9", "1008.2.1.1.1.1.10"] := by
  refine ⟨fun cids => ?_, fun cids => List.perm_insertionSort cidLe cids, rfl⟩
  haveI : IsTotal String cidLe := ⟨fun a b => natListLe_total (cidKey a) (cidKey b)⟩
  haveI : IsTrans String cidLe :=
    ⟨fun a b c h1 h2 => natListLe_trans (cidKey a) (cidKey b) (cidKey c) h1 h2⟩
  exact List.sorted_insertionSort cidLe cids

/-- Claim C8: for every pair of file lists whose (`.dcm`-filtered) counts
differ, the File-Set Matcher returns false immediately; the result is the
same for every pair of read functions, so no metadata comparison or file
read can influence it. -/
theorem C8_count_mismatch_immediate (readX readD : String → Dataset)
    (xnatList darisList : List String) (cid sess : String) (did : Nat)
    (h : (darisList.filter endsDcm).length ≠ (xnatList.filter endsDcm).length) :
    compare_all_dicoms readX readD xnatList darisList cid sess did = .ok false := by
  simp only [compare_all_dicoms]
  rw [if_pos h]

/-- Witness for C8 at a concrete input: one destination file, no source
files. -/
theorem C8_count_mismatch_immediate_witness :
    ((([] : List String)).filter endsDcm).length ≠
      ((["a.dcm"] : List String).filter endsDcm).length ∧
    compare_all_dicoms readEmpty readEmpty ["a.dcm"] [] "c" "s" 1 = .ok false :=
  ⟨by decide, C8_count_mismatch_immediate readEmpty readEmpty ["a.dcm"] [] "c" "s" 1 (by decide)⟩

/-- Claim C1 (evaluation at the failing input): the destination slot
groups have sizes 2 and 1 — the echo counts are inconsistent — yet
`compare_all_dicoms` returns true, because line 174 of the source computes
`min_mult` with `max` exactly like `max_mult`, so the inconsistency check
at line 175 can never fire.  The claim (and the spec) require the matcher
to fail the whole dataset here. -/
theorem C1_inconsistent_echoes_accepted :
    (lookupMap (xnatMapOf ["b-1-1.dcm", "b-1-2.dcm", "b-2-1.dcm"]) 1).length = 2 ∧
    (lookupMap (xnatMapOf ["b-1-1.dcm", "b-1-2.dcm", "b-2-1.dcm"]) 2).length = 1 ∧
    compare_all_dicoms readEmpty readEmpty
      ["b-1-1.dcm", "b-1-2.dcm", "b-2-1.dcm"] ["1.dcm", "2.dcm", "3.dcm"]
      "1008.2.1.1.1.1.1" "MRH999_001_MR01" 1 = .ok true :=
  ⟨rfl, rfl, rfl⟩

/-- Claim C2 (evaluation at the failing input): comparing a two-item
sequence against a one-item sequence of the same field, the comparator
logs the length mismatch (line 132) but — since the source never sets
`match = False` in that branch and `zip` truncates to the shorter
sequence — still returns true for the subtree.  The claim (and the spec)
require an immediate failure. -/
theorem C2_seq_length_mismatch_accepted :
    compare_dicoms xdsC2 ddsC2 "p" =
      .ok (true, [LogEntry.seqLenMismatch "p" "Seq" 2 1]) := rfl

/-- Counterexample to claim C3: a slot whose only ordered candidate pair
is rejected by the timing-mismatch signal (the two sides' echo times are
`"2"` and `"1"`), yet the matcher returns true for the dataset — the
source never records whether any pair of a slot actually succeeded. -/
theorem C3_counterexample :
    compare_dicoms (dsET "2") (dsET "1") (slotPfx "c" "s" 1 1) = .error .wrongEchoTime ∧
    compare_all_dicoms (fun _ => dsET "2") (fun _ => dsET "1")
      ["x-1-1.dcm"] ["0.dcm"] "c" "s" 1 = .ok true :=
  ⟨rfl, rfl⟩

/-- Counterexample to claim C4: the echo-time field is present on the
daris (right) side of `ddsC4` and absent from the xnat (left) side
`xdsC4`; the comparator does NOT raise the timing-mismatch signal — it
logs the missing echo time as an ordinary mismatch (line 118-120) and
completes with `false`. -/
theorem C4_counterexample :
    dsLookup ddsC4 echoTimeTag = some (DElem.mk echoTimeTag "Echo Time" (.str "1")) ∧
    dsLookup xdsC4 echoTimeTag = none ∧
    compare_dicoms xdsC4 ddsC4 "p" =
      .ok (false, [LogEntry.echoTimeMissing, LogEntry.missingField "p",
        LogEntry.valueMismatch "p" "Echo Time" (some (.str "v", .str "1"))]) :=
  ⟨rfl, rfl, rfl⟩

/-- Counterexample to claim C5: a field present only on the right side
does not always make the comparison return false — when it is the first
field iterated, the recursive call at line 128 uses the never-bound
variable `x` and the comparison aborts with a `NameError` instead. -/
theorem C5_counterexample :
    compare_dicoms dsEmpty ddsC5 "p" = .error .nameError := rfl

/-- Counterexample to claim C10: the first daris-side field (`A`) is
absent from the xnat side, but the comparison does not abort with a name
error — the echo-time pre-check (lines 112-116) runs first, and since
both records carry the echo-time tag with unequal values it raises
`WrongEchoTimeException` before the field loop is ever reached. -/
theorem C10_counterexample :
    dsLookup xdsC10 (8, 8) = none ∧
    compare_dicoms xdsC10 ddsC10 "p" = .error .wrongEchoTime :=
  ⟨rfl, rfl⟩

/-- Claim C4, amended: the timing-mismatch signal
(`WrongEchoTimeException`) is raised exactly by the value pre-check —
when the acquisition-timing field is present on BOTH records with unequal
values; when it is present on the right record but absent on the left,
the comparator records an ordinary mismatch instead (the missing echo
time is logged and any completed comparison returns false). -/
theorem C4_amended_timing_signal :
    (∀ (xds dds : Dataset) (pfx : String) (de xe : DElem),
        dsLookup dds echoTimeTag = some de → dsLookup xds echoTimeTag = some xe →
        pyEq de.val xe.val = false →
        compare_dicoms xds dds pfx = .error .wrongEchoTime) ∧
    (∀ (xds dds : Dataset) (pfx : String) (de : DElem) (b : Bool) (lg : List LogEntry),
        dsLookup dds echoTimeTag = some de → dsLookup xds echoTimeTag = none →
        compare_dicoms xds dds pfx = .ok (b, lg) → b = false) := by
  constructor
  · intro xds dds pfx de xe hd hx hne
    obtain ⟨delems⟩ := dds
    simp only [dsLookup] at hd
    simp [compare_dicoms, compareDS, hd, hx, hne]
  · intro xds dds pfx de b lg hd hx hcmp
    obtain ⟨delems⟩ := dds
    simp only [dsLookup] at hd
    simp only [compare_dicoms, compareDS, hd, hx] at hcmp
    rcases hfl : compareFields xds delems none pfx [] with e | ⟨b2, lg2⟩
    · rw [hfl] at hcmp; exact absurd hcmp (by simp)
    · rw [hfl] at hcmp
      simp only [Except.ok.injEq, Prod.mk.injEq] at hcmp
      exact hcmp.1.symm

/-- Witness for C4 (amended), first part: two records both carrying the
echo-time tag with the unequal values `"2"` (left) and `"1"` (right); the
comparator raises the timing signal.  Second part instantiated on the C4
fixtures, where the comparison completes with `false`. -/
theorem C4_amended_timing_signal_witness :
    compare_dicoms (dsET "2") (dsET "1") "q" = .error .wrongEchoTime ∧ (false : Bool) = false :=
  ⟨C4_amended_timing_signal.1 (dsET "2") (dsET "1") "q"
      (DElem.mk echoTimeTag "Echo Time" (.str "1"))
      (DElem.mk echoTimeTag "Echo Time" (.str "2")) rfl rfl rfl,
   C4_amended_timing_signal.2 xdsC4 ddsC4 "p"
      (DElem.mk echoTimeTag "Echo Time" (.str "1")) false
      [LogEntry.echoTimeMissing, LogEntry.missingField "p",
        LogEntry.valueMismatch "p" "Echo Time" (some (.str "v", .str "1"))] rfl rfl rfl⟩

/-- Once a daris-side field is missing from the xnat dataset, the field
loop can never complete with `true`: the `match = False` of line 127 is
sticky. -/
theorem compareFields_missing_false :
    ∀ (ds : Elems) (xds : Dataset) (lastX : Option DElem) (pfx : String)
      (ns : List String) (b : Bool) (lg : List LogEntry),
      hasMissingField xds ds = true →
      compareFields xds ds lastX pfx ns = .ok (b, lg) → b = false
  | .nil, xds, lastX, pfx, ns, b, lg, hmiss, _ => by
    simp [hasMissingField] at hmiss
  | .cons d tl, xds, lastX, pfx, ns, b, lg, hmiss, hcmp => by
    simp only [hasMissingField, Bool.or_eq_true] at hmiss
    rcases hlook : dsLookup xds d.tag with _ | x
    · -- missing here: the result boolean is literally false
      rcases lastX with _ | x0
      · simp [compareFields, hlook] at hcmp
      · simp only [compareFields, hlook] at hcmp
        rcases h1 : compareEl x0 d pfx (ns ++ [d.name]) with e | ⟨b1, lg1⟩ <;>
          rw [h1] at hcmp
        · simp at hcmp
        · rcases h2 : compareFields xds tl (some x0) pfx ns with e | ⟨b2, lg2⟩ <;>
            rw [h2] at hcmp
          · simp at hcmp
          · simp only [Except.ok.injEq, Prod.mk.injEq] at hcmp
            exact hcmp.1.symm
    · -- found here: the tail must contain the missing field
      have hmiss' : hasMissingField xds tl = true := by
        rcases hmiss with h | h
        · rw [hlook] at h; simp at h
        · exact h
      simp only [compareFields, hlook] at hcmp
      rcases h1 : compareEl x d pfx (ns ++ [d.name]) with e | ⟨b1, lg1⟩ <;>
        rw [h1] at hcmp
      · simp at hcmp
      · rcases h2 : compareFields xds tl (some x) pfx ns with e | ⟨b2, lg2⟩ <;>
          rw [h2] at hcmp
        · simp at hcmp
        · simp only [Except.ok.injEq, Prod.mk.injEq] at hcmp
          have hb2 : b2 = false :=
            compareFields_missing_false tl xds (some x) pfx ns b2 lg2 hmiss' h2
          rw [← hcmp.1, hb2, Bool.and_false]

/-- Appending elements whose tags cannot satisfy a lookup does not change
the lookup. -/
theorem elemsLookup_append :
    ∀ (xs extra : Elems) (t : Tag), elemsLookup extra t = none →
      elemsLookup (elemsAppend xs extra) t = elemsLookup xs t
  | .nil, extra, t, h => by simpa [elemsAppend, elemsLookup] using h
  | .cons e tl, extra, t, h => by
    simp only [elemsAppend, elemsLookup]
    split
    · rfl
    · exact elemsLookup_append tl extra t h

/-- A tag that resolves in `dds` resolves to nothing in an element list
that is tag-disjoint from `dds`. -/
theorem disjoint_lookup_none :
    ∀ (extra dds : Elems) (t : Tag) (d : DElem), disjointFrom extra dds = true →
      elemsLookup dds t = some d → elemsLookup extra t = none
  | .nil, dds, t, d, _, _ => rfl
  | .cons e tl, dds, t, d, hdisj, hsome => by
    simp only [disjointFrom, Bool.and_eq_true] at hdisj
    simp only [elemsLookup]
    rcases hbe : (e.tag == t) with _ | _
    · simpa using disjoint_lookup_none tl dds t d hdisj.2 hsome
    · have : e.tag = t := by simpa using hbe
      rw [this] at hdisj
      rw [hsome] at hdisj
      simp at hdisj

/-- Looking up the tag of a member element succeeds (possibly finding an
earlier element of the same tag). -/
theorem elemsLookup_self_isSome :
    ∀ (ds : Elems) (e : DElem), elemIn e ds → ∃ d, elemsLookup ds e.tag = some d
  | .nil, e, h => absurd h (by simp [elemIn])
  | .cons h0 tl, e, hmem => by
    simp only [elemIn] at hmem
    simp only [elemsLookup]
    rcases hbe : (h0.tag == e.tag) with _ | _
    · rcases hmem with rfl | hmem
      · simp at hbe
      · simpa using elemsLookup_self_isSome tl e hmem
    · exact ⟨h0, by simp⟩

/-- The field loop only consults the xnat dataset at daris-side tags, so
xnat-side elements with tags foreign to the iterated fields are
invisible to it. -/
theorem compareFields_append :
    ∀ (rest xelems extra : Elems) (lastX : Option DElem) (pfx : String) (ns : List String),
      (∀ e : DElem, elemIn e rest → elemsLookup extra e.tag = none) →
      compareFields (.mk (elemsAppend xelems extra)) rest lastX pfx ns =
        compareFields (.mk xelems) rest lastX pfx ns
  | .nil, _, _, _, _, _, _ => rfl
  | .cons d tl, xelems, extra, lastX, pfx, ns, h => by
    have hd : elemsLookup extra d.tag = none := h d (Or.inl rfl)
    have hlook : dsLookup (.mk (elemsAppend xelems extra)) d.tag =
        dsLookup (.mk xelems) d.tag := by
      simp only [dsLookup]
      exact elemsLookup_append xelems extra d.tag hd
    have htl : ∀ e : DElem, elemIn e tl → elemsLookup extra e.tag = none :=
      fun e he => h e (Or.inr he)
    rcases lastX with _ | x0
    · simp only [compareFields, hlook]
      rcases hl : dsLookup (.mk xelems) d.tag with _ | x
      · simp only [hl]
      · simp only [hl]
        rw [compareFields_append tl xelems extra (some x) pfx ns htl]
    · simp only [compareFields, hlook]
      rcases hl : dsLookup (.mk xelems) d.tag with _ | x
      · simp only [hl]
        rw [compareFields_append tl xelems extra (some x0) pfx ns htl]
      · simp only [hl]
        rw [compareFields_append tl xelems extra (some x) pfx ns htl]

/-- Dataset comparison ignores xnat-side elements whose tags do not occur
on the daris side: the echo-time pre-check and every field lookup are
keyed by daris-side tags only. -/
theorem compareDS_append (xelems extra delems : Elems) (pfx : String) (ns : List String)
    (hdisj : disjointFrom extra delems = true) :
    compareDS (.mk (elemsAppend xelems extra)) (.mk delems) pfx ns =
      compareDS (.mk xelems) (.mk delems) pfx ns := by
  have hmem : ∀ e : DElem, elemIn e delems → elemsLookup extra e.tag = none := by
    intro e he
    obtain ⟨d, hd⟩ := elemsLookup_self_isSome delems e he
    exact disjoint_lookup_none extra delems e.tag d hdisj hd
  have hflds : ∀ lastX, compareFields (.mk (elemsAppend xelems extra)) delems lastX pfx ns =
      compareFields (.mk xelems) delems lastX pfx ns :=
    fun lastX => compareFields_append delems xelems extra lastX pfx ns hmem
  simp only [compareDS]
  rcases hET : elemsLookup delems echoTimeTag with _ | de <;> simp only [hET]
  · exact hflds none
  · have hxet : dsLookup (.mk (elemsAppend xelems extra)) echoTimeTag =
        dsLookup (.mk xelems) echoTimeTag := by
      simp only [dsLookup]
      exact elemsLookup_append xelems extra echoTimeTag
        (disjoint_lookup_none extra delems echoTimeTag de hdisj hET)
    rw [hxet, hflds none]

/-- Claim C5, amended: the comparator is asymmetric, but a field present
only on the right record does not always make it return false — it
prevents the comparison from ever completing with `true` (first
conjunct; when the missing field is the first one iterated the
comparison instead aborts with a name error, see the counterexample),
while a field present only on the left record is never inspected and
does not affect the result (second conjunct). -/
theorem C5_amended_right_only_fields :
    (∀ (xds : Dataset) (delems : Elems) (pfx : String) (b : Bool) (lg : List LogEntry),
        hasMissingField xds delems = true →
        compare_dicoms xds (.mk delems) pfx = .ok (b, lg) → b = false) ∧
    (∀ (xelems extra delems : Elems) (pfx : String),
        disjointFrom extra delems = true →
        compare_dicoms (.mk (elemsAppend xelems extra)) (.mk delems) pfx =
          compare_dicoms (.mk xelems) (.mk delems) pfx) := by
  constructor
  · intro xds delems pfx b lg hmiss hcmp
    simp only [compare_dicoms, compareDS] at hcmp
    rcases hET : elemsLookup delems echoTimeTag with _ | de <;> rw [hET] at hcmp
    · exact compareFields_missing_false delems xds none pfx [] b lg hmiss hcmp
    · rcases hx : dsLookup xds echoTimeTag with _ | xe <;> rw [hx] at hcmp
      · rcases hf : compareFields xds delems none pfx [] with e | ⟨b2, lg2⟩ <;>
          rw [hf] at hcmp
        · simp at hcmp
        · simp only [Except.ok.injEq, Prod.mk.injEq] at hcmp
          exact hcmp.1.symm
      · rcases hpe : pyEq de.val xe.val with _ | _ <;> simp only [hpe] at hcmp
        · simp at hcmp
        · simp only [if_true] at hcmp
          exact compareFields_missing_false delems xds none pfx [] b lg hmiss hcmp
  · intro xelems extra delems pfx hdisj
    exact compareDS_append xelems extra delems pfx [] hdisj

/-- Witness for C5 (amended): the first part applied to records where the
missing field `B` is iterated after the matched field `A` (the
comparison completes with `false`), the second to an xnat record
extended by a tag-disjoint element `Z`. -/
theorem C5_amended_right_only_fields_witness :
    hasMissingField (Dataset.mk xdsC5w) ddsC5w = true ∧ (false : Bool) = false ∧
    compare_dicoms (Dataset.mk (elemsAppend xdsC5w extraC5w)) (Dataset.mk ddsC5w) "p" =
      compare_dicoms (Dataset.mk xdsC5w) (Dataset.mk ddsC5w) "p" :=
  ⟨rfl,
   C5_amended_right_only_fields.1 (Dataset.mk xdsC5w) ddsC5w "p" false
     [LogEntry.missingField "p", LogEntry.valueMismatch "p" "B" (some (.str "v", .str "w"))]
     rfl rfl,
   C5_amended_right_only_fields.2 xdsC5w extraC5w ddsC5w "p" rfl⟩

/-- Claim C10, amended: when the very first field iterated from the right
record is absent from the left record, the comparison aborts with an
uncaught name error (the recursive call at line 128 uses the never-bound
variable `x`) — provided the echo-time pre-check does not abort the
comparison first: when both records carry the acquisition-timing field
with unequal values, the pre-check raises the timing-mismatch signal
before the field loop is reached (see the counterexample). -/
theorem C10_amended_unbound_name (xds : Dataset) (d : DElem) (tl : Elems) (pfx : String)
    (hmiss : dsLookup xds d.tag = none)
    (het : etWouldRaise xds (.mk (.cons d tl)) = false) :
    compare_dicoms xds (.mk (.cons d tl)) pfx = .error .nameError := by
  have hfl : compareFields xds (.cons d tl) none pfx [] = .error .nameError := by
    simp only [compareFields, hmiss]
  simp only [compare_dicoms, compareDS]
  rcases hET : elemsLookup (.cons d tl) echoTimeTag with _ | de <;> simp only [hET]
  · exact hfl
  · rcases hx : dsLookup xds echoTimeTag with _ | xe <;> simp only [hx]
    · rw [hfl]
    · have hpe : pyEq de.val xe.val = true := by
        have hET2 : dsLookup (Dataset.mk (Elems.cons d tl)) echoTimeTag = some de := by
          simp only [dsLookup, hET]
        simp only [etWouldRaise, hET2, hx] at het
        simpa using het
      simp only [hpe, if_true]
      exact hfl

/-- Witness for C10 (amended): an empty left record against a right
record with one field; the comparison aborts with the name error. -/
theorem C10_amended_unbound_name_witness :
    compare_dicoms (Dataset.mk .nil)
      (Dataset.mk (.cons (DElem.mk (32, 32) "C" (.str "c")) .nil)) "r" = .error .nameError :=
  C10_amended_unbound_name (Dataset.mk .nil) (DElem.mk (32, 32) "C" (.str "c")) .nil "r" rfl rfl

mutual
/-- Python equality is reflexive on values. -/
theorem pyEq_refl : ∀ v : DVal, pyEq v v = true
  | .str s => by simp [pyEq]
  | .num n => by simp [pyEq]
  | .seq items => by
    simp only [pyEq]
    exact pyEqSeq_refl items
/-- Python equality is reflexive on sequence items. -/
theorem pyEqSeq_refl : ∀ s : SeqItems, pyEqSeq s s = true
  | .nil => rfl
  | .cons d tl => by
    simp only [pyEqSeq, Bool.and_eq_true]
    exact ⟨pyEqDS_refl d, pyEqSeq_refl tl⟩
/-- Python equality is reflexive on datasets. -/
theorem pyEqDS_refl : ∀ d : Dataset, pyEqDS d d = true
  | .mk es => by
    simp only [pyEqDS]
    exact pyEqElems_refl es
/-- Python equality is reflexive on element lists. -/
theorem pyEqElems_refl : ∀ es : Elems, pyEqElems es es = true
  | .nil => rfl
  | .cons e tl => by
    simp only [pyEqElems, Bool.and_eq_true]
    exact ⟨pyEqEl_refl e, pyEqElems_refl tl⟩
/-- Python equality is reflexive on single elements. -/
theorem pyEqEl_refl : ∀ e : DElem, pyEqEl e e = true
  | .mk t n v => by
    simp only [pyEqEl, Bool.and_eq_true]
    exact ⟨⟨by simp, by simp⟩, pyEq_refl v⟩
end

/-- The field-loop invariant survives extending the dataset by an element
whose tag is fresh. -/
theorem lookupOK_lift :
    ∀ (rest : Elems) (h0 : DElem) (tl : Elems), lookupOK (.mk tl) rest →
      elemsLookup tl h0.tag = none → lookupOK (.mk (.cons h0 tl)) rest
  | .nil, _, _, _, _ => trivial
  | .cons e rtl, h0, tl, hok, hnone => by
    simp only [lookupOK] at hok ⊢
    obtain ⟨⟨hlook, hwf⟩, hrest⟩ := hok
    refine ⟨⟨?_, hwf⟩, lookupOK_lift rtl h0 tl hrest hnone⟩
    simp only [dsLookup, elemsLookup] at hlook ⊢
    rcases hbe : (h0.tag == e.tag) with _ | _
    · simpa using hlook
    · have heq : h0.tag = e.tag := by simpa using hbe
      rw [heq] at hnone
      rw [hlook] at hnone
      simp at hnone

/-- In a well-formed dataset, looking up any element's tag finds exactly
that element. -/
theorem wf_lookupOK : ∀ es : Elems, wfElems es = true → lookupOK (.mk es) es
  | .nil, _ => trivial
  | .cons (.mk t n v) tl, h => by
    simp only [wfElems, Bool.and_eq_true] at h
    obtain ⟨⟨hnone, hwfv⟩, hwfes⟩ := h
    simp only [lookupOK]
    refine ⟨⟨?_, hwfv⟩, ?_⟩
    · simp [dsLookup, elemsLookup, DElem.tag]
    · exact lookupOK_lift tl (.mk t n v) tl (wf_lookupOK tl hwfes)
        (by simpa [DElem.tag, Option.isNone_iff_eq_none] using hnone)

mutual
/-- Comparing a well-formed dataset against itself succeeds with an empty
log. -/
theorem compareDS_refl : ∀ (X : Dataset) (pfx : String) (ns : List String),
    wfDS X = true → compareDS X X pfx ns = .ok (true, [])
  | .mk es, pfx, ns, h => by
    have hok : lookupOK (.mk es) es := wf_lookupOK es (by simpa [wfDS] using h)
    simp only [compareDS]
    rcases hET : elemsLookup es echoTimeTag with _ | de <;> simp only [hET]
    · exact compareFields_refl (.mk es) es none pfx ns hok
    · have hx : dsLookup (.mk es) echoTimeTag = some de := by simp [dsLookup, hET]
      simp only [hx, pyEq_refl de.val, if_true]
      exact compareFields_refl (.mk es) es none pfx ns hok

/-- The field loop of a self-comparison succeeds when every iterated
element is found as itself. -/
theorem compareFields_refl : ∀ (xds : Dataset) (rest : Elems) (lastX : Option DElem)
    (pfx : String) (ns : List String), lookupOK xds rest →
    compareFields xds rest lastX pfx ns = .ok (true, [])
  | _, .nil, _, _, _, _ => rfl
  | xds, .cons e tl, lastX, pfx, ns, hok => by
    simp only [lookupOK] at hok
    obtain ⟨⟨hlook, hwf⟩, hrest⟩ := hok
    simp only [compareFields, hlook,
      compareEl_refl e pfx (ns ++ [e.name]) hwf,
      compareFields_refl xds tl (some e) pfx ns hrest]
    rfl

/-- Comparing a well-formed element against itself succeeds. -/
theorem compareEl_refl : ∀ (e : DElem) (pfx : String) (ns : List String),
    wfVal e.val = true → compareEl e e pfx ns = .ok (true, [])
  | .mk t n v, pfx, ns, h => by
    cases v with
    | str s => simp [compareEl, DElem.val, pyEq]
    | num k => simp [compareEl, DElem.val, pyEq]
    | seq items =>
      simp only [compareEl, DElem.val,
        compareSeq_refl items pfx ns (by simpa [wfVal, DElem.val] using h)]
      simp

/-- Comparing well-formed sequence items against themselves succeeds. -/
theorem compareSeq_refl : ∀ (items : SeqItems) (pfx : String) (ns : List String),
    wfSeq items = true → compareSeq items items pfx ns = .ok (true, [])
  | .nil, _, _, _ => rfl
  | .cons d tl, pfx, ns, h => by
    simp only [wfSeq, Bool.and_eq_true] at h
    simp only [compareSeq, compareDS_refl d pfx ns h.1, compareSeq_refl tl pfx ns h.2]
    rfl
end

/-- Claim C6: the Record Comparator is reflexive — for every well-formed
metadata record `X` (pairwise-distinct tags at every nesting level, as
pydicom datasets guarantee), `compare_dicoms X X` returns true, emits no
discrepancy log entry and signals no timing-mismatch condition. -/
theorem C6_reflexive (X : Dataset) (pfx : String) (h : wfDS X = true) :
    compare_dicoms X X pfx = .ok (true, []) :=
  compareDS_refl X pfx [] h

/-- Witness for C6 at a concrete record with an echo time, a scalar field
and a nested sequence. -/
theorem C6_reflexive_witness :
    wfDS dsRefl = true ∧ compare_dicoms dsRefl dsRefl "p" = .ok (true, []) :=
  ⟨rfl, C6_reflexive dsRefl "p" rfl⟩

/-- Claim C7: for every pair of unequal string scalars, the mismatch log
entry names the field path and includes the literal values exactly when
the larger of the two lengths is at most 100; if either side's length
exceeds 100 the values are omitted (line 143 computes
`max(len(xnat), len(daris)) > 100`). -/
theorem C7_scalar_mismatch_log (tx td : Tag) (nx nd : String) (sx sd : String)
    (pfx : String) (ns : List String) (h : sx ≠ sd) :
    compareEl (DElem.mk tx nx (.str sx)) (DElem.mk td nd (.str sd)) pfx ns =
      .ok (false, [LogEntry.valueMismatch pfx (joinDot ns)
        (if max sx.length sd.length ≤ 100 then some (DVal.str sx, DVal.str sd)
         else none)]) := by
  have hne : pyEq (DVal.str sx) (DVal.str sd) = false := by
    simp only [pyEq]
    exact beq_eq_false_iff_ne.mpr h
  simp only [compareEl, DElem.val, hne, pyLen, Bool.false_eq_true, if_false]
  split
  · rename_i hle
    rw [if_pos (by simpa using hle)]
  · rename_i hle
    rw [if_neg (by simpa using hle)]


/-- Witness for C7 at both boundary sizes: two distinct strings of length
exactly 100 keep the literal values in the log entry; lengths 1 and 101
drop them. -/
theorem C7_scalar_mismatch_log_witness :
    String.mk (List.replicate 100 'a') ≠ String.mk (List.replicate 100 'b') ∧
    compareEl (DElem.mk (8, 8) "A" (.str (String.mk (List.replicate 100 'a'))))
        (DElem.mk (8, 8) "A" (.str (String.mk (List.replicate 100 'b')))) "p" [] =
      .ok (false, [LogEntry.valueMismatch "p" ""
        (some (DVal.str (String.mk (List.replicate 100 'a')),
               DVal.str (String.mk (List.replicate 100 'b'))))]) ∧
    compareEl (DElem.mk (8, 8) "A" (.str "a"))
        (DElem.mk (8, 8) "A" (.str (String.mk (List.replicate 101 'b')))) "p" [] =
      .ok (false, [LogEntry.valueMismatch "p" "" none]) :=
  ⟨by decide,
   C7_scalar_mismatch_log (8, 8) (8, 8) "A" "A"
     (String.mk (List.replicate 100 'a')) (String.mk (List.replicate 100 'b'))
     "p" [] (by decide),
   C7_scalar_mismatch_log (8, 8) (8, 8) "A" "A"
     "a" (String.mk (List.replicate 101 'b')) "p" [] (by decide)⟩

/-- The candidate-pair loop of a slot completes (with `.ok true`) exactly
when every ordered pair either compares successfully or is rejected by
the timing signal; it never requires any pair to succeed. -/
theorem tryPairs_eq_ok_true_iff (readX readD : String → Dataset) (pfx : String)
    (xlist dlist : List String) :
    ∀ ps : List (Nat × Nat), tryPairs readX readD pfx xlist dlist ps = .ok true ↔
      ∀ p ∈ ps, pairOk (compare_dicoms (readX (xlist.getD p.2 ""))
        (readD (dlist.getD p.1 "")) pfx) = true
  | [] => by simp [tryPairs]
  | (i, j) :: rest => by
    rw [List.forall_mem_cons]
    simp only [tryPairs]
    rcases hc : compare_dicoms (readX (xlist.getD j "")) (readD (dlist.getD i "")) pfx
      with e | ⟨b, lg⟩
    · rcases e
      · simp [pairOk, hc, tryPairs_eq_ok_true_iff readX readD pfx xlist dlist rest]
      · simp [pairOk, hc]
      · simp [pairOk, hc]
      · simp [pairOk, hc]
      · simp [pairOk, hc]
    · rcases b
      · simp [pairOk, hc]
      · simp [pairOk, hc, tryPairs_eq_ok_true_iff readX readD pfx xlist dlist rest]

/-- The slot loop returns `.ok true` exactly when every slot passes the
multiplicity assertion and its pair loop completes. -/
theorem slotsLoop_eq_ok_true_iff (readX readD : String → Dataset) (cid sess : String)
    (did : Nat) (xmap : List (Nat × List String)) :
    ∀ slots : List (Nat × List String),
      slotsLoop readX readD cid sess did xmap slots = .ok true ↔
      ∀ s ∈ slots, (lookupMap xmap s.1).length = s.2.length ∧
        tryPairs readX readD (slotPfx cid sess did s.1) (lookupMap xmap s.1) s.2
          (allPairs s.2.length) = .ok true
  | [] => by simp [slotsLoop]
  | (k, dlist) :: rest => by
    rw [List.forall_mem_cons]
    simp only [slotsLoop]
    by_cases hlen : (lookupMap xmap k).length = dlist.length
    · rw [if_neg (by simpa using hlen)]
      rcases ht : tryPairs readX readD (slotPfx cid sess did k) (lookupMap xmap k) dlist
          (allPairs dlist.length) with e | b
      · simp [ht, hlen]
      · rcases b
        · simp [ht, hlen]
        · simp [ht, hlen, slotsLoop_eq_ok_true_iff readX readD cid sess did xmap rest]
    · rw [if_pos (by simpa using hlen)]
      simp [hlen]

/-- Claim C3, amended: the File-Set Matcher returns true iff the
file-count check, the non-emptiness of the destination map, and the
slot-set check pass and, within every slot, every ordered candidate pair
either compares successfully or is rejected by the timing-mismatch
signal.  It does NOT require any slot to yield a successful pair: a slot
in which every ordered pair is rejected by the timing signal still
contributes true (see the counterexample), and conversely one fatally
mismatching pair fails the dataset even if another pair of the same slot
succeeded. -/
theorem C3_amended_characterization (readX readD : String → Dataset)
    (xnatList darisList : List String) (cid sess : String) (did : Nat) :
    compare_all_dicoms readX readD xnatList darisList cid sess did = .ok true ↔
      ((darisList.filter endsDcm).length = (xnatList.filter endsDcm).length ∧
       xnatMapOf xnatList ≠ [] ∧
       sortNat ((xnatMapOf xnatList).map Prod.fst) =
         sortNat ((darisMapOf (echoMult xnatList) darisList).map Prod.fst) ∧
       ∀ s ∈ darisMapOf (echoMult xnatList) darisList,
         (lookupMap (xnatMapOf xnatList) s.1).length = s.2.length ∧
         ∀ p ∈ allPairs s.2.length,
           pairOk (compare_dicoms
             (readX ((lookupMap (xnatMapOf xnatList) s.1).getD p.2 ""))
             (readD (s.2.getD p.1 "")) (slotPfx cid sess did s.1)) = true) := by
  simp only [compare_all_dicoms, xnatMapOf, darisMapOf, echoMult]
  by_cases h1 : (darisList.filter endsDcm).length = (xnatList.filter endsDcm).length
  case neg =>
    rw [if_pos (by simpa using h1)]
    simp [h1]
  case pos =>
    rw [if_neg (by simpa using h1)]
    by_cases h2 : buildMap xnatSlot (xnatList.filter endsDcm) = []
    case pos => simp [h2, h1]
    case neg =>
      rw [if_neg h2]
      rw [if_neg (fun hmm => hmm rfl)]
      by_cases h3 : sortNat ((buildMap xnatSlot (xnatList.filter endsDcm)).map Prod.fst) =
          sortNat ((buildMap (darisSlot (listMaxNat
            ((buildMap xnatSlot (xnatList.filter endsDcm)).map
              (fun kv => kv.2.length)))) (darisList.filter endsDcm)).map Prod.fst)
      case neg =>
        rw [if_pos (by simpa using h3)]
        simp [h1, h2, h3]
      case pos =>
        rw [if_neg (by simpa using h3)]
        rw [slotsLoop_eq_ok_true_iff readX readD cid sess did
          (buildMap xnatSlot (xnatList.filter endsDcm))]
        simp only [h1, h2, h3, ne_eq, not_false_iff, true_and]
        apply forall_congr'
        intro s
        apply imp_congr_right
        intro hs
        apply and_congr_right
        intro hlen
        exact tryPairs_eq_ok_true_iff readX readD (slotPfx cid sess did s.1)
          (lookupMap (buildMap xnatSlot (xnatList.filter endsDcm)) s.1) s.2
          (allPairs s.2.length)
